import Mathlib

/-!
# Verification of the qpcr `Filters` submodule

A shallow embedding of `src/qpcr/Filters/Filters.py`: the shared `Filter`
lifecycle, the `RangeFilter` and `IQRFilter` strategies, and the module-level
`filter` convenience entry point.

Modelling conventions:
- Python floats are modelled as exact rationals; the float `NaN` is `none` in
  `Option ℚ` (NaN-propagating arithmetic is the `addO`/`subO`/`mulO` family,
  and any comparison against NaN is false, as in numpy/pandas).
- The measurement table (`qpcr.Assay`, an external collaborator whose code is
  not part of this submodule) is a list of rows `(index, group, value)`; its
  operations `groups()` and `ignore()` are modelled from the spec.
- pandas `DataFrame.query` with a NaN bound is modelled as raising: the bound
  is interpolated into the query string as the bare name `nan`, which pandas
  cannot resolve (`UndefinedVariableError`); with finite bounds the query
  selects the rows whose value compares strictly outside the bounds.
- I/O side effects (report files, the summary plotter) are outside the model.
-/

set_option autoImplicit false

/-- One replicate row of a measurement table: a unique row index, a group
identifier and a raw (Ct) value which may be NaN (`none`). -/
structure Row where
  idx : ℕ
  group : ℕ
  value : Option ℚ
deriving DecidableEq, Repr

/-- A measurement table (`qpcr.Assay`): an identifier and its rows. -/
structure Assay where
  id : String
  rows : List Row
deriving DecidableEq, Repr

/-- Distinct elements of a list in order of first appearance. -/
def dedupFirst (l : List ℕ) : List ℕ :=
  l.foldl (fun acc g => if g ∈ acc then acc else acc ++ [g]) []

/-- Modelled from the spec: the external `MeasurementTable.groupIds()`
(`qpcr.Assay.groups()`, whose code is outside this submodule) — the distinct
group identifiers occurring in the table. -/
def Assay.groupsList (A : Assay) : List ℕ :=
  dedupFirst (A.rows.map (fun r => r.group))

/-- Mask a single row: if its index is among the faulty indices, its value is
overwritten with NaN. -/
def maskRow (faulty : List ℕ) (r : Row) : Row :=
  if r.idx ∈ faulty then { r with value := none } else r

/-- Modelled from the spec: the external `MeasurementTable.exclude` operation
(`qpcr.Assay.ignore(faulty_indices, drop)`, whose code is outside this
submodule): with `drop = true` the given rows are removed from the table, with
`drop = false` their values are overwritten with NaN and the rows retained. -/
def Assay.ignore (A : Assay) (faulty : List ℕ) (drop : Bool) : Assay :=
  if drop then { A with rows := A.rows.filter (fun r => decide (r.idx ∉ faulty)) }
  else { A with rows := A.rows.map (maskRow faulty) }

/-- One row of the filtering-statistics ledger (`Filter._save_stats` appends
one such record per processed group). -/
structure LedgerEntry where
  assay : String
  group : ℕ
  anchor : Option ℚ
  upper : Option ℚ
  lower : Option ℚ
deriving DecidableEq, Repr

/-- Errors surfaced by the embedded code: `aw.FilterError(condition)`, the
pandas `UndefinedVariableError` escaping from a query whose bound formatted as
the unresolvable name `nan`, the `TypeError` raised by calling an instance
method on a class object, and the `UnboundLocalError` raised by
`RangeFilter._get_anchor` when no branch of its type dispatch assigns the
local `anchor` before `return anchor`. -/
inductive PyError where
  | filterError (condition : String)
  | undefinedVariableError (name : String)
  | typeError
  | unboundLocalError (name : String)
deriving DecidableEq, Repr

/-- The anchor specification of a `RangeFilter` (`self._anchor`), dispatched
by runtime type in `RangeFilter._get_anchor`: `None` (group median), a
callable, a list/tuple/dict indexed by group, or a plain numeric value.
The callable case is split by Python runtime type, because the source's
dispatch is `type(self._anchor) == type(print)`, which matches only objects
of type `builtin_function_or_method` (C builtins and C-extension functions):
`builtin` is such an object and is invoked; `fn` is a user-defined Python
function (type `function`), which matches no branch of the dispatch. -/
inductive AnchorSpec (K : Type) where
  | median
  | builtin (f : List Row → K → Option ℚ)
  | table (f : ℕ → Option ℚ)
  | const (c : ℚ)
  | fn (f : List Row → K → Option ℚ)

/-- Whether an anchor specification is a callable (of either Python type). -/
def AnchorSpec.isCallable {K : Type} : AnchorSpec K → Bool
  | .builtin _ => true
  | .fn _ => true
  | _ => false

/-- Whether an anchor specification is a user-defined function — the variant
whose resolution raises `UnboundLocalError` in the source. -/
def AnchorSpec.isFn {K : Type} : AnchorSpec K → Bool
  | .fn _ => true
  | _ => false

/-- The mutable state of a filter instance. `K` is the type of the keyword
arguments forwarded to `filter` (opaque to the engine, consumed only by a
callable anchor). The `anchor` field belongs to `RangeFilter` and is unused by
`IQRFilter`. `faulty_indices` is the vestigial attribute written by `reset()`
and never read. -/
structure FState (K : Type) where
  assay : Option Assay
  ignore_nan : Bool
  drop_outliers : Bool
  upper : ℚ
  lower : ℚ
  anchor : AnchorSpec K
  filter_stats : List LedgerEntry
  faulty_indices : List ℕ

/-- `RangeFilter.__init__`: upper and lower default to 1, no anchor spec
(group median), and the `Filter.__init__` defaults (`_ignore_nan = True`,
`_drop_outliers = False`, empty ledger, no linked table). -/
def RangeFilter.init {K : Type} : FState K :=
  { assay := none, ignore_nan := true, drop_outliers := false,
    upper := 1, lower := 1, anchor := .median,
    filter_stats := [], faulty_indices := [] }

/-- `IQRFilter.__init__`: upper and lower multipliers default to 1.5. -/
def IQRFilter.init {K : Type} : FState K :=
  { assay := none, ignore_nan := true, drop_outliers := false,
    upper := 3/2, lower := 3/2, anchor := .median,
    filter_stats := [], faulty_indices := [] }

/-- NaN-propagating addition on floats (`a + b` with NaN absorbing). -/
def addO : Option ℚ → Option ℚ → Option ℚ
  | some a, some b => some (a + b)
  | _, _ => none

/-- NaN-propagating subtraction on floats. -/
def subO : Option ℚ → Option ℚ → Option ℚ
  | some a, some b => some (a - b)
  | _, _ => none

/-- NaN-propagating multiplication on floats. -/
def mulO : Option ℚ → Option ℚ → Option ℚ
  | some a, some b => some (a * b)
  | _, _ => none

/-- Insert a rational into an already sorted list. -/
def insertSorted (x : ℚ) : List ℚ → List ℚ
  | [] => [x]
  | y :: ys => if x ≤ y then x :: y :: ys else y :: insertSorted x ys

/-- Sort a list of rationals (insertion sort). -/
def sortQ (xs : List ℚ) : List ℚ :=
  xs.foldr insertSorted []

/-- Median of a list of (non-NaN) floats: middle element of the sorted list,
or the mean of the two middle elements for even length; `none` on the empty
list (numpy returns NaN there). -/
def sortedMid (ys : List ℚ) : Option ℚ :=
  let s := sortQ ys
  let n := s.length
  if n = 0 then none
  else if n % 2 = 1 then some (s.getD (n / 2) 0)
  else some ((s.getD (n / 2 - 1) 0 + s.getD (n / 2) 0) / 2)

/-- `np.median`: NaN-propagating — NaN (`none`) if any input is NaN or the
input is empty, otherwise the middle of the sorted values. -/
def npMedian (xs : List (Option ℚ)) : Option ℚ :=
  if xs.any (fun v => v.isNone) then none
  else sortedMid (xs.filterMap id)

/-- `np.nanmedian`: NaN entries are dropped before taking the median; NaN only
when every entry is NaN (or the input is empty). -/
def npNanMedian (xs : List (Option ℚ)) : Option ℚ :=
  sortedMid (xs.filterMap id)

/-- `np.nanquantile` with the default linear interpolation: drop NaNs, sort,
take the virtual index `q * (n - 1)` and interpolate between its floor and the
next element. NaN (`none`) when no non-NaN entry remains. -/
def npNanQuantile (q : ℚ) (xs : List (Option ℚ)) : Option ℚ :=
  let s := sortQ (xs.filterMap id)
  let n := s.length
  if n = 0 then none
  else
    let pos : ℚ := q * ((n : ℚ) - 1)
    let i : ℕ := (⌊pos⌋).toNat
    let gam : ℚ := pos - (i : ℚ)
    some (s.getD i 0 + gam * (s.getD (i + 1) 0 - s.getD i 0))

/-- The row predicate of the exclusion query `Ct < lower or Ct > upper` with
finite bounds: true when the value lies strictly outside; NaN values satisfy
neither comparison. -/
def valOut (v : Option ℚ) (lo hi : ℚ) : Bool :=
  match v with
  | some x => decide (x < lo) || decide (x > hi)
  | none => false

/-- `tmp.query(f"Ct < lower or Ct > upper")`: with finite bounds, the rows
whose value is strictly outside the window; with a NaN bound, the formatted
query string contains the bare name `nan`, which pandas fails to resolve. -/
def queryOutside (tmp : List Row) (lower upper : Option ℚ) :
    Except PyError (List Row) :=
  match lower, upper with
  | some lo, some hi => .ok (tmp.filter (fun r => valOut r.value lo hi))
  | _, _ => .error (.undefinedVariableError "nan")

/-- The outcome of processing one replicate group inside a strategy's
`_filter` loop: skipped by the NaN-anchor policy, aborted by a raised
exception, or completed with flagged row indices and a ledger entry. -/
inductive GroupOutcome where
  | skipped
  | failed (e : PyError)
  | done (faulty : List ℕ) (entry : LedgerEntry)
deriving DecidableEq, Repr

/-- The shared shape of the per-group loop in `RangeFilter._filter` and
`IQRFilter._filter`: process the groups in order, accumulating flagged indices
and ledger entries; a raised exception aborts the loop, keeping the ledger
entries appended so far and discarding the local flagged-index list. -/
def Filter.loop (step : ℕ → GroupOutcome) :
    List ℕ → Option PyError × List ℕ × List LedgerEntry
  | [] => (none, [], [])
  | g :: gs =>
    match step g with
    | .skipped => Filter.loop step gs
    | .failed e => (some e, [], [])
    | .done f en =>
      let r := Filter.loop step gs
      (r.1, f ++ r.2.1, en :: r.2.2)

/-- `Filter._filter_out`: the exclusion operation is invoked only when at
least one row was flagged; otherwise the table is left untouched. -/
def Filter.filterOut (A : Assay) (faulty : List ℕ) (drop : Bool) : Assay :=
  if 0 < faulty.length then A.ignore faulty drop else A

/-- `RangeFilter._get_anchor(kwargs, group, tmp)`: dispatch on the runtime
type of `self._anchor` — `None` gives `np.median` of the group's values; a
callable of type `builtin_function_or_method` (the only kind matched by
`type(self._anchor) == type(print)`) is applied to the sub-table and the
forwarded keyword arguments; a list/tuple/dict is indexed by the group; a
numeric value is used as is. A user-defined Python function matches none of
the branches, so the local `anchor` is never assigned and the trailing
`return anchor` raises `UnboundLocalError`. -/
def RangeFilter.getAnchor {K : Type} (s : FState K) (kwargs : K) (g : ℕ)
    (tmp : List Row) : Except PyError (Option ℚ) :=
  match s.anchor with
  | .median => .ok (npMedian (tmp.map (fun r => r.value)))
  | .builtin f => .ok (f tmp kwargs)
  | .table f => .ok (f g)
  | .const c => .ok (some c)
  | .fn f => .error (.unboundLocalError "anchor")

/-- `RangeFilter._set_bounds(anchor)`: `(anchor + upper, anchor - lower)`. -/
def RangeFilter.setBounds {K : Type} (s : FState K) (anchor : Option ℚ) :
    Option ℚ × Option ℚ :=
  (addO anchor (some s.upper), subO anchor (some s.lower))

/-- The body of the per-group loop of `RangeFilter._filter`: restrict to the
group's rows, resolve the anchor (which raises for a user-defined function
anchor, aborting the loop before the NaN check), skip when the NaN-anchor
policy applies, otherwise compute the window, run the exclusion query and
record the ledger entry. -/
def RangeFilter.processGroup {K : Type} (kwargs : K) (s : FState K)
    (aid : String) (df : List Row) (g : ℕ) : GroupOutcome :=
  let tmp := df.filter (fun r => r.group == g)
  match RangeFilter.getAnchor s kwargs g tmp with
  | .error e => .failed e
  | .ok anchor =>
    if s.ignore_nan && anchor.isNone then .skipped
    else
      let b := RangeFilter.setBounds s anchor
      match queryOutside tmp b.2 b.1 with
      | .error e => .failed e
      | .ok faulty => .done (faulty.map (fun r => r.idx)) ⟨aid, g, anchor, b.1, b.2⟩

/-- The per-group loop of `RangeFilter._filter` over all groups of a table. -/
def RangeFilter.groupResults {K : Type} (kwargs : K) (s : FState K) (A : Assay) :
    Option PyError × List ℕ × List LedgerEntry :=
  Filter.loop (RangeFilter.processGroup kwargs s A.id A.rows) A.groupsList

/-- `RangeFilter._filter`: run the per-group loop, then apply the batch
exclusion to the flagged indices and append the new ledger entries. A raised
exception leaves the table untouched but keeps the ledger entries already
appended. -/
def RangeFilter.run {K : Type} (kwargs : K) (s : FState K) (A : Assay) :
    Option PyError × FState K :=
  let r := RangeFilter.groupResults kwargs s A
  match r.1 with
  | some e => (some e, { s with filter_stats := s.filter_stats ++ r.2.2 })
  | none =>
    (none, { s with assay := some (Filter.filterOut A r.2.1 s.drop_outliers),
                    filter_stats := s.filter_stats ++ r.2.2 })

/-- `IQRFilter._set_bounds(anchor, first, third)`:
`iqr = third - first`, `(anchor + iqr * upper, anchor - iqr * lower)`. -/
def IQRFilter.setBounds {K : Type} (s : FState K)
    (anchor first third : Option ℚ) : Option ℚ × Option ℚ :=
  let iqr := subO third first
  (addO anchor (mulO iqr (some s.upper)), subO anchor (mulO iqr (some s.lower)))

/-- The body of the per-group loop of `IQRFilter._filter`: the anchor is the
NaN-safe median, the window comes from the NaN-safe quantile estimates at 0.26
and 0.76 scaled by the multipliers. -/
def IQRFilter.processGroup {K : Type} (s : FState K)
    (aid : String) (df : List Row) (g : ℕ) : GroupOutcome :=
  let tmp := df.filter (fun r => r.group == g)
  let anchor := npNanMedian (tmp.map (fun r => r.value))
  if s.ignore_nan && anchor.isNone then .skipped
  else
    let first := npNanQuantile (26/100) (tmp.map (fun r => r.value))
    let third := npNanQuantile (76/100) (tmp.map (fun r => r.value))
    let b := IQRFilter.setBounds s anchor first third
    match queryOutside tmp b.2 b.1 with
    | .error e => .failed e
    | .ok faulty => .done (faulty.map (fun r => r.idx)) ⟨aid, g, anchor, b.1, b.2⟩

/-- The per-group loop of `IQRFilter._filter` over all groups of a table. -/
def IQRFilter.groupResults {K : Type} (kwargs : K) (s : FState K) (A : Assay) :
    Option PyError × List ℕ × List LedgerEntry :=
  Filter.loop (IQRFilter.processGroup s A.id A.rows) A.groupsList

/-- `IQRFilter._filter` (the keyword arguments are accepted and unused). -/
def IQRFilter.run {K : Type} (kwargs : K) (s : FState K) (A : Assay) :
    Option PyError × FState K :=
  let r := IQRFilter.groupResults kwargs s A
  match r.1 with
  | some e => (some e, { s with filter_stats := s.filter_stats ++ r.2.2 })
  | none =>
    (none, { s with assay := some (Filter.filterOut A r.2.1 s.drop_outliers),
                    filter_stats := s.filter_stats ++ r.2.2 })

/-- `Filter.filter(**kwargs)`: with a linked table, delegate to the
strategy-specific `_filter` and return the (now filtered) linked table; with
no linked table, raise `FilterError("no_assay")` without touching anything. -/
def Filter.filterTop {K : Type}
    (impl : K → FState K → Assay → Option PyError × FState K)
    (kwargs : K) (s : FState K) : Except PyError (Option Assay) × FState K :=
  match s.assay with
  | some A =>
    match impl kwargs s A with
    | (some e, s1) => (.error e, s1)
    | (none, s1) => (.ok s1.assay, s1)
  | none => (.error (.filterError "no_assay"), s)

/-- `Filter.link`: associate a table with the filter instance. -/
def Filter.link {K : Type} (s : FState K) (A : Assay) : FState K :=
  { s with assay := some A }

/-- `Filter.reset`: clears the (vestigial) excluded-index bookkeeping; the
ledger is untouched. -/
def Filter.reset {K : Type} (s : FState K) : FState K :=
  { s with faulty_indices := [] }

/-- `Filter.set_lim(lim, upper, lower)`: a symmetric limit sets both bounds,
then explicit upper and lower values override individually. -/
def Filter.setLim {K : Type} (s : FState K) (lim upper lower : Option ℚ) :
    FState K :=
  let s1 := match lim with
    | some v => { s with upper := v, lower := v }
    | none => s
  let s2 := match upper with
    | some v => { s1 with upper := v }
    | none => s1
  match lower with
  | some v => { s2 with lower := v }
  | none => s2

/-- `Filter.ignore_nan`: set the NaN-anchor policy flag. -/
def Filter.ignoreNan {K : Type} (s : FState K) (b : Bool) : FState K :=
  { s with ignore_nan := b }

/-- `Filter.drop_outliers`: set the outlier-disposal flag. -/
def Filter.dropOutliers {K : Type} (s : FState K) (b : Bool) : FState K :=
  { s with drop_outliers := b }

/-- `Filter.pipe` on a single table: `link` then `filter`; the return value is
the instance's linked table after filtering. -/
def Filter.pipeOne {K : Type}
    (impl : K → FState K → Assay → Option PyError × FState K)
    (kwargs : K) (s : FState K) (A : Assay) :
    Except PyError (Option Assay) × FState K :=
  Filter.filterTop impl kwargs (Filter.link s A)

/-- `Filter.pipe` on a list of tables: each table is piped in order through
the same instance (sharing its configuration and ledger); note the list branch
of the source forwards no keyword arguments to the recursive calls, so they
run with empty kwargs (`noKw`). An exception aborts the remaining tables. -/
def Filter.pipeList {K : Type}
    (impl : K → FState K → Assay → Option PyError × FState K)
    (noKw : K) (s : FState K) :
    List Assay → Except PyError (List (Option Assay)) × FState K
  | [] => (.ok [], s)
  | A :: As =>
    match Filter.pipeOne impl noKw s A with
    | (.error e, s1) => (.error e, s1)
    | (.ok a, s1) =>
      match Filter.pipeList impl noKw s1 As with
      | (.error e, s2) => (.error e, s2)
      | (.ok as, s2) => (.ok (a :: as), s2)

/-- The argument/result shape of `Filters.filter` and `Filter.pipe`: a single
table or a list of tables. -/
inductive AssayInput where
  | one (A : Assay)
  | many (As : List Assay)

/-- The result of `Filters.filter`: same shape as the input. -/
inductive FilterOutput where
  | one (A : Option Assay)
  | many (As : List (Option Assay))

/-- `Filter.pipe(Assay, **kwargs)`: dispatch on list versus single table. -/
def Filter.pipe {K : Type}
    (impl : K → FState K → Assay → Option PyError × FState K)
    (noKw kwargs : K) (s : FState K) :
    AssayInput → Except PyError FilterOutput × FState K
  | .one A =>
    match Filter.pipeOne impl kwargs s A with
    | (.error e, s1) => (.error e, s1)
    | (.ok a, s1) => (.ok (.one a), s1)
  | .many As =>
    match Filter.pipeList impl noKw s As with
    | (.error e, s1) => (.error e, s1)
    | (.ok as, s1) => (.ok (.many as), s1)

/-- The value bound to `f` in the convenience entry point: an instance of a
filter, or — as actually happens for the non-"range" branch of
`RangeFilter() if mode == "range" else IQRFilter` — the class object itself. -/
inductive FilterRef (K : Type) where
  | inst (s : FState K)
  | cls

/-- Calling `set_lim` on `f`: on a class object the unbound method is invoked
without a `self` argument, raising `TypeError`. -/
def FilterRef.callSetLim {K : Type} (f : FilterRef K)
    (lim upper lower : Option ℚ) : Except PyError (FilterRef K) :=
  match f with
  | .cls => .error .typeError
  | .inst s => .ok (.inst (Filter.setLim s lim upper lower))

/-- Calling `set_anchor` on `f` (reached only in "range" mode). -/
def FilterRef.callSetAnchor {K : Type} (f : FilterRef K) (a : AnchorSpec K) :
    Except PyError (FilterRef K) :=
  match f with
  | .cls => .error .typeError
  | .inst s => .ok (.inst { s with anchor := a })

/-- Calling `ignore_nan` on `f`. -/
def FilterRef.callIgnoreNan {K : Type} (f : FilterRef K) (b : Bool) :
    Except PyError (FilterRef K) :=
  match f with
  | .cls => .error .typeError
  | .inst s => .ok (.inst (Filter.ignoreNan s b))

/-- Calling `drop_outliers` on `f`. -/
def FilterRef.callDropOutliers {K : Type} (f : FilterRef K) (b : Bool) :
    Except PyError (FilterRef K) :=
  match f with
  | .cls => .error .typeError
  | .inst s => .ok (.inst (Filter.dropOutliers s b))

/-- The limit argument of `Filters.filter`: a scalar or a two-element
sequence. -/
inductive LimArg where
  | scalar (v : ℚ)
  | pair (a b : ℚ)

/-- The configuration phase of the module-level `filter` function (source
lines 491-502): build `f` (`RangeFilter()` for mode "range", otherwise the
bare class `IQRFilter` — the parentheses are missing in the source), then
apply `set_lim` (a sequence maps positionally to `upper = lim[0]`,
`lower = lim[1]`, a scalar to `lim`), `set_anchor` (range mode only, when an
anchor is given), `ignore_nan` and `drop_outliers`. -/
def Filters.filterConfig {K : Type} (mode : String) (lim : Option LimArg)
    (anchor : Option (AnchorSpec K)) (ignore_nan drop_outliers : Bool) :
    Except PyError (FilterRef K) := do
  let f : FilterRef K := if mode = "range" then .inst RangeFilter.init else .cls
  let f ← match lim with
    | none => pure f
    | some (.pair a b) => f.callSetLim none (some a) (some b)
    | some (.scalar v) => f.callSetLim (some v) none none
  let f ← if mode = "range" then
      match anchor with
      | some a => f.callSetAnchor a
      | none => pure f
    else pure f
  let f ← f.callIgnoreNan ignore_nan
  let f ← f.callDropOutliers drop_outliers
  pure f

/-- The module-level convenience function `filter(assay, mode, lim, anchor,
ignore_nan, drop_outliers)`: configure a strategy and run `pipe` once (with no
keyword arguments). The configured instance is always a `RangeFilter`, since
the "iqr" branch of the source binds the class object and every configuration
call on it raises `TypeError` before `pipe` is reached. -/
def Filters.filter {K : Type} (noKw : K) (mode : String) (lim : Option LimArg)
    (anchor : Option (AnchorSpec K)) (ignore_nan drop_outliers : Bool)
    (assay : AssayInput) : Except PyError FilterOutput := do
  let f ← Filters.filterConfig mode lim anchor ignore_nan drop_outliers
  match f with
  | .cls => .error .typeError
  | .inst s => (Filter.pipe RangeFilter.run noKw noKw s assay).1

/-- Unfolding equation for `Filter.loop` on a nonempty group list. -/
theorem Filter.loop_cons (step : ℕ → GroupOutcome) (g : ℕ) (gs : List ℕ) :
    Filter.loop step (g :: gs) =
      match step g with
      | .skipped => Filter.loop step gs
      | .failed e => (some e, [], [])
      | .done f en =>
        let r := Filter.loop step gs
        (r.1, f ++ r.2.1, en :: r.2.2) := rfl

/-- Every ledger entry produced by the loop comes from a group of the list
whose processing completed. -/
theorem Filter.loop_mem_entries {step : ℕ → GroupOutcome} {gs : List ℕ}
    {e : LedgerEntry} (h : e ∈ (Filter.loop step gs).2.2) :
    ∃ g ∈ gs, ∃ f, step g = .done f e := by
  induction gs with
  | nil => simp [Filter.loop] at h
  | cons g gs ih =>
    rw [Filter.loop_cons] at h
    cases hg : step g with
    | skipped =>
      rw [hg] at h
      obtain ⟨g1, hg1, hf⟩ := ih h
      exact ⟨g1, List.mem_cons_of_mem g hg1, hf⟩
    | failed e1 => rw [hg] at h; simp at h
    | done f en =>
      rw [hg] at h
      simp only [List.mem_cons] at h
      rcases h with h | h
      · exact ⟨g, List.mem_cons_self g gs, f, by rw [hg, h]⟩
      · obtain ⟨g1, hg1, hf⟩ := ih h
        exact ⟨g1, List.mem_cons_of_mem g hg1, hf⟩

/-- On a successful run, the ledger entries are exactly one per
non-skipped group, in processing order. -/
theorem Filter.loop_entries_of_ok {step : ℕ → GroupOutcome} {gs : List ℕ}
    (h : (Filter.loop step gs).1 = none) :
    (Filter.loop step gs).2.2 = gs.filterMap (fun g =>
      match step g with
      | .done _ e => some e
      | _ => none) := by
  induction gs with
  | nil => simp [Filter.loop]
  | cons g gs ih =>
    rw [Filter.loop_cons] at h ⊢
    cases hg : step g with
    | skipped => rw [hg] at h; simp [hg, ih h]
    | failed e1 => rw [hg] at h; simp at h
    | done f en => rw [hg] at h; simp [hg, ih h]

/-- On a successful run, no group's processing raised. -/
theorem Filter.loop_step_of_ok {step : ℕ → GroupOutcome} {gs : List ℕ} {g : ℕ}
    (h : (Filter.loop step gs).1 = none) (hg : g ∈ gs) :
    step g = .skipped ∨ ∃ f e, step g = .done f e := by
  induction gs with
  | nil => simp at hg
  | cons g1 gs ih =>
    rw [Filter.loop_cons] at h
    rcases List.mem_cons.mp hg with rfl | hmem
    · cases hs : step g with
      | skipped => exact Or.inl rfl
      | failed e1 => rw [hs] at h; simp at h
      | done f e => exact Or.inr ⟨f, e, rfl⟩
    · cases hs : step g1 with
      | skipped => rw [hs] at h; exact ih h hmem
      | failed e1 => rw [hs] at h; simp at h
      | done f e => rw [hs] at h; exact ih h hmem

/-- On a successful run, the flagged indices of each completed group are among
the flagged indices of the whole loop. -/
theorem Filter.loop_done_subset {step : ℕ → GroupOutcome} {gs : List ℕ} {g : ℕ}
    {f : List ℕ} {e : LedgerEntry} (h : (Filter.loop step gs).1 = none)
    (hg : g ∈ gs) (hd : step g = .done f e) :
    ∀ i ∈ f, i ∈ (Filter.loop step gs).2.1 := by
  induction gs with
  | nil => simp at hg
  | cons g1 gs ih =>
    rw [Filter.loop_cons] at h ⊢
    rcases List.mem_cons.mp hg with rfl | hmem
    · rw [hd] at h ⊢
      intro i hi
      simp [List.mem_append, hi]
    · cases hs : step g1 with
      | skipped => rw [hs] at h; exact ih h hmem
      | failed e1 => rw [hs] at h; simp at h
      | done f1 e1 =>
        rw [hs] at h
        intro i hi
        exact List.mem_append_right f1 (ih h hmem i hi)

/-- If every completed group of the list flagged no rows, the loop flags no
rows (this also covers a loop aborted by an exception). -/
theorem Filter.loop_faulty_nil {step : ℕ → GroupOutcome} {gs : List ℕ}
    (h : ∀ g ∈ gs, ∀ f e, step g = .done f e → f = []) :
    (Filter.loop step gs).2.1 = [] := by
  induction gs with
  | nil => simp [Filter.loop]
  | cons g gs ih =>
    rw [Filter.loop_cons]
    have hrest := ih (fun g1 hg1 => h g1 (List.mem_cons_of_mem g hg1))
    cases hg : step g with
    | skipped => exact hrest
    | failed e1 => rfl
    | done f en => simp [h g (List.mem_cons_self g gs) f en hg, hrest]

/-- Unfolding equation for `RangeFilter.processGroup` when the anchor
resolution raises. -/
theorem RangeFilter.processGroup_anchor_error {K : Type} {kwargs : K} {s : FState K}
    {aid : String} {df : List Row} {g : ℕ} {e1 : PyError}
    (ha : RangeFilter.getAnchor s kwargs g (df.filter (fun r => r.group == g))
      = .error e1) :
    RangeFilter.processGroup kwargs s aid df g = .failed e1 := by
  simp only [RangeFilter.processGroup]
  rw [ha]

/-- Unfolding equation for `RangeFilter.processGroup` when the anchor
resolution returns. -/
theorem RangeFilter.processGroup_anchor_ok {K : Type} {kwargs : K} {s : FState K}
    {aid : String} {df : List Row} {g : ℕ} {v : Option ℚ}
    (ha : RangeFilter.getAnchor s kwargs g (df.filter (fun r => r.group == g))
      = .ok v) :
    RangeFilter.processGroup kwargs s aid df g =
      (if s.ignore_nan && v.isNone then .skipped
       else
        match queryOutside (df.filter (fun r => r.group == g))
            (RangeFilter.setBounds s v).2 (RangeFilter.setBounds s v).1 with
        | .error e => .failed e
        | .ok faulty => .done (faulty.map (fun r => r.idx))
            ⟨aid, g, v, (RangeFilter.setBounds s v).1, (RangeFilter.setBounds s v).2⟩) := by
  simp only [RangeFilter.processGroup]
  rw [ha]

/-- Characterization of a completed group of `RangeFilter._filter`: its anchor
resolved to a finite value, the flagged indices are exactly the rows of the
group whose value lies strictly outside `[a - lower, a + upper]`, and the
ledger entry records `(assay, group, anchor, upper bound, lower bound)`. -/
theorem RangeFilter.processGroup_done {K : Type} {kwargs : K} {s : FState K}
    {aid : String} {df : List Row} {g : ℕ} {f : List ℕ} {e : LedgerEntry}
    (h : RangeFilter.processGroup kwargs s aid df g = .done f e) :
    ∃ a, RangeFilter.getAnchor s kwargs g (df.filter (fun r => r.group == g))
        = .ok (some a) ∧
      f = ((df.filter (fun r => r.group == g)).filter
            (fun r => valOut r.value (a - s.lower) (a + s.upper))).map (fun r => r.idx) ∧
      e = ⟨aid, g, some a, some (a + s.upper), some (a - s.lower)⟩ := by
  cases ha : RangeFilter.getAnchor s kwargs g (df.filter (fun r => r.group == g)) with
  | error e1 =>
    rw [RangeFilter.processGroup_anchor_error ha] at h
    cases h
  | ok v =>
    rw [RangeFilter.processGroup_anchor_ok ha] at h
    cases v with
    | none =>
      cases hig : s.ignore_nan with
      | true => simp [hig] at h
      | false => simp [hig, RangeFilter.setBounds, addO, subO, queryOutside] at h
    | some a =>
      simp only [Option.isNone_some, Bool.and_false, Bool.false_eq_true, if_false,
        RangeFilter.setBounds, addO, subO, queryOutside] at h
      injection h with hf he
      exact ⟨a, rfl, hf.symm, he.symm⟩

/-- A skipped group of `RangeFilter._filter` means: the ignore-NaN flag is set
and the anchor resolved to NaN. -/
theorem RangeFilter.processGroup_skipped {K : Type} {kwargs : K} {s : FState K}
    {aid : String} {df : List Row} {g : ℕ}
    (h : RangeFilter.processGroup kwargs s aid df g = .skipped) :
    s.ignore_nan = true ∧
      RangeFilter.getAnchor s kwargs g (df.filter (fun r => r.group == g))
        = .ok none := by
  cases ha : RangeFilter.getAnchor s kwargs g (df.filter (fun r => r.group == g)) with
  | error e1 =>
    rw [RangeFilter.processGroup_anchor_error ha] at h
    cases h
  | ok v =>
    rw [RangeFilter.processGroup_anchor_ok ha] at h
    cases v with
    | some a =>
      simp [RangeFilter.setBounds, addO, subO, queryOutside] at h
    | none =>
      cases hig : s.ignore_nan with
      | true => exact ⟨rfl, rfl⟩
      | false => simp [hig, RangeFilter.setBounds, addO, subO, queryOutside] at h

/-- Characterization of a completed group of `IQRFilter._filter`: the ledger
entry records the NaN-safe median as anchor and the bounds
`anchor ± (Q3 - Q1) × multiplier` from the 0.26/0.76 quantile estimates. -/
theorem IQRFilter.processGroup_done_iqr {K : Type} {s : FState K}
    {aid : String} {df : List Row} {g : ℕ} {f : List ℕ} {e : LedgerEntry}
    (h : IQRFilter.processGroup s aid df g = .done f e) :
    ∃ a, npNanMedian ((df.filter (fun r => r.group == g)).map (fun r => r.value)) = some a ∧
      e = ⟨aid, g, some a,
        addO (some a) (mulO (subO
          (npNanQuantile (76/100) ((df.filter (fun r => r.group == g)).map (fun r => r.value)))
          (npNanQuantile (26/100) ((df.filter (fun r => r.group == g)).map (fun r => r.value))))
          (some s.upper)),
        subO (some a) (mulO (subO
          (npNanQuantile (76/100) ((df.filter (fun r => r.group == g)).map (fun r => r.value)))
          (npNanQuantile (26/100) ((df.filter (fun r => r.group == g)).map (fun r => r.value))))
          (some s.lower))⟩ := by
  simp only [IQRFilter.processGroup] at h
  cases ha : npNanMedian ((df.filter (fun r => r.group == g)).map (fun r => r.value)) with
  | none =>
    rw [ha] at h
    cases hig : s.ignore_nan with
    | true => rw [hig] at h; simp at h
    | false =>
      rw [hig] at h
      simp only [Option.isNone_none, Bool.and_true, Bool.false_and, if_false] at h
      simp [IQRFilter.setBounds, addO, subO, mulO, queryOutside] at h
  | some a =>
    rw [ha] at h
    simp only [Option.isNone_some, Bool.and_false, Bool.false_eq_true, if_false,
      IQRFilter.setBounds] at h
    refine ⟨a, rfl, ?_⟩
    cases hq1 : npNanQuantile (26/100) ((df.filter (fun r => r.group == g)).map (fun r => r.value)) with
    | none =>
      rw [hq1] at h
      simp [addO, subO, mulO, queryOutside] at h
    | some q1 =>
      cases hq3 : npNanQuantile (76/100) ((df.filter (fun r => r.group == g)).map (fun r => r.value)) with
      | none =>
        rw [hq3, hq1] at h
        simp [addO, subO, mulO, queryOutside] at h
      | some q3 =>
        rw [hq3, hq1] at h
        simp only [subO, mulO, addO, queryOutside] at h
        injection h with hf he
        exact he.symm

/-- `RangeFilter._filter` only rewrites the linked table and appends to the
ledger: the configuration fields of the filter are untouched, and on success
the table becomes the batch-excluded table. -/
theorem RangeFilter.run_shape {K : Type} (kwargs : K) (s : FState K) (A : Assay) :
    (RangeFilter.run kwargs s A).2.ignore_nan = s.ignore_nan ∧
    (RangeFilter.run kwargs s A).2.drop_outliers = s.drop_outliers ∧
    (RangeFilter.run kwargs s A).2.upper = s.upper ∧
    (RangeFilter.run kwargs s A).2.lower = s.lower ∧
    (RangeFilter.run kwargs s A).2.anchor = s.anchor ∧
    (RangeFilter.run kwargs s A).2.filter_stats
      = s.filter_stats ++ (RangeFilter.groupResults kwargs s A).2.2 ∧
    (RangeFilter.run kwargs s A).1 = (RangeFilter.groupResults kwargs s A).1 ∧
    (RangeFilter.run kwargs s A).2.assay
      = if (RangeFilter.groupResults kwargs s A).1 = none
        then some (Filter.filterOut A (RangeFilter.groupResults kwargs s A).2.1 s.drop_outliers)
        else s.assay := by
  simp only [RangeFilter.run]
  cases h : (RangeFilter.groupResults kwargs s A).1 <;> simp

/-- `IQRFilter._filter` has the same state shape as `RangeFilter._filter`. -/
theorem IQRFilter.run_shape_iqr {K : Type} (kwargs : K) (s : FState K) (A : Assay) :
    (IQRFilter.run kwargs s A).2.ignore_nan = s.ignore_nan ∧
    (IQRFilter.run kwargs s A).2.drop_outliers = s.drop_outliers ∧
    (IQRFilter.run kwargs s A).2.upper = s.upper ∧
    (IQRFilter.run kwargs s A).2.lower = s.lower ∧
    (IQRFilter.run kwargs s A).2.anchor = s.anchor ∧
    (IQRFilter.run kwargs s A).2.filter_stats
      = s.filter_stats ++ (IQRFilter.groupResults kwargs s A).2.2 ∧
    (IQRFilter.run kwargs s A).1 = (IQRFilter.groupResults kwargs s A).1 ∧
    (IQRFilter.run kwargs s A).2.assay
      = if (IQRFilter.groupResults kwargs s A).1 = none
        then some (Filter.filterOut A (IQRFilter.groupResults kwargs s A).2.1 s.drop_outliers)
        else s.assay := by
  simp only [IQRFilter.run]
  cases h : (IQRFilter.groupResults kwargs s A).1 <;> simp

/-- Masking does not change a row's group. -/
theorem maskRow_group (fa : List ℕ) (r : Row) : (maskRow fa r).group = r.group := by
  unfold maskRow
  split <;> rfl

/-- Masking does not change a row's index. -/
theorem maskRow_idx (fa : List ℕ) (r : Row) : (maskRow fa r).idx = r.idx := by
  unfold maskRow
  split <;> rfl

/-- Masking with an empty faulty list is the identity. -/
theorem maskRow_nil (r : Row) : maskRow [] r = r := by
  simp [maskRow]

/-- With `drop = false` the batch exclusion keeps every row and masks exactly
the flagged ones (this also covers the no-op case of an empty flag list). -/
theorem filterOut_rows_mask (A : Assay) (fa : List ℕ) :
    (Filter.filterOut A fa false).rows = A.rows.map (maskRow fa) ∧
    (Filter.filterOut A fa false).id = A.id := by
  unfold Filter.filterOut
  by_cases h : 0 < fa.length
  · simp [h, Assay.ignore]
  · have hfa : fa = [] := by
      cases fa with
      | nil => rfl
      | cons x xs => simp at h
    subst hfa
    have hfun : maskRow [] = id := funext maskRow_nil
    simp [hfun]

/-- Group restriction commutes with masking. -/
theorem filter_mask_comm (fa : List ℕ) (g : ℕ) (l : List Row) :
    (l.map (maskRow fa)).filter (fun r => r.group == g)
      = (l.filter (fun r => r.group == g)).map (maskRow fa) := by
  induction l with
  | nil => rfl
  | cons r l ih =>
    simp only [List.map_cons, List.filter_cons, maskRow_group]
    cases hc : (r.group == g) <;> simp [ih]

/-- Masking preserves the group-identifier sequence, hence the group list. -/
theorem groupsList_mask (A : Assay) (fa : List ℕ) (aid : String) :
    Assay.groupsList ⟨aid, A.rows.map (maskRow fa)⟩ = A.groupsList := by
  unfold Assay.groupsList
  simp only [List.map_map]
  have hmap : A.rows.map ((fun r => r.group) ∘ maskRow fa)
      = A.rows.map (fun r => r.group) := by
    induction A.rows with
    | nil => rfl
    | cons r l ih => simp [Function.comp, maskRow_group, ih]
  rw [hmap]

/-- `np.median` is NaN as soon as one input is NaN. -/
theorem npMedian_of_mem_none {xs : List (Option ℚ)} (h : none ∈ xs) :
    npMedian xs = none := by
  unfold npMedian
  have : xs.any (fun v => v.isNone) = true := by
    rw [List.any_eq_true]
    exact ⟨none, h, rfl⟩
  simp [this]

/-- Insertion sort preserves length. -/
theorem insertSorted_length (x : ℚ) (l : List ℚ) :
    (insertSorted x l).length = l.length + 1 := by
  induction l with
  | nil => rfl
  | cons y ys ih =>
    unfold insertSorted
    split
    · rfl
    · simp [ih]

/-- Sorting preserves length. -/
theorem sortQ_length (l : List ℚ) : (sortQ l).length = l.length := by
  induction l with
  | nil => rfl
  | cons x xs ih =>
    unfold sortQ at ih ⊢
    simp [List.foldr_cons, insertSorted_length, ih]

/-- A NaN-free `np.median` is NaN only on the empty list. -/
theorem npMedian_none_cases {xs : List (Option ℚ)} (h : npMedian xs = none) :
    xs = [] ∨ none ∈ xs := by
  unfold npMedian at h
  by_cases hany : xs.any (fun v => v.isNone) = true
  · right
    obtain ⟨v, hv, hnone⟩ := List.any_eq_true.mp hany
    cases v with
    | none => exact hv
    | some a => simp at hnone
  · left
    rw [if_neg hany] at h
    unfold sortedMid at h
    by_cases hn : (sortQ (xs.filterMap id)).length = 0
    · have hnil : xs.filterMap id = [] := by
        have := sortQ_length (xs.filterMap id)
        rw [hn] at this
        exact List.length_eq_zero.mp this.symm
      have hall : ∀ v ∈ xs, id v = none := List.filterMap_eq_nil_iff.mp hnil
      cases hxs : xs with
      | nil => rfl
      | cons v vs =>
        exfalso
        have hv := hall v (by rw [hxs]; exact List.mem_cons_self v vs)
        have hvnone : v = none := hv
        apply hany
        rw [List.any_eq_true]
        exact ⟨v, by rw [hxs]; exact List.mem_cons_self v vs, by rw [hvnone]; rfl⟩
    · rw [if_neg hn] at h
      split at h <;> simp at h

/-- C6: invoking `filter()` with no table linked raises
`FilterError("no_assay")` and leaves the filter state (table and ledger)
completely unchanged; with a table linked it delegates to the
strategy-specific exclusion routine and returns the linked, now filtered,
table. -/
theorem c6_filter_requires_link {K : Type} (kwargs : K) (s : FState K) :
    (s.assay = none →
      Filter.filterTop RangeFilter.run kwargs s
          = (.error (.filterError "no_assay"), s) ∧
      Filter.filterTop IQRFilter.run kwargs s
          = (.error (.filterError "no_assay"), s)) ∧
    (∀ A, s.assay = some A →
      ((RangeFilter.run kwargs s A).1 = none →
        Filter.filterTop RangeFilter.run kwargs s
          = (.ok (RangeFilter.run kwargs s A).2.assay, (RangeFilter.run kwargs s A).2)) ∧
      ((IQRFilter.run kwargs s A).1 = none →
        Filter.filterTop IQRFilter.run kwargs s
          = (.ok (IQRFilter.run kwargs s A).2.assay, (IQRFilter.run kwargs s A).2))) := by
  refine ⟨fun h => ⟨?_, ?_⟩, fun A hA => ⟨fun hok => ?_, fun hok => ?_⟩⟩
  · simp [Filter.filterTop, h]
  · simp [Filter.filterTop, h]
  · rcases hrun : RangeFilter.run kwargs s A with ⟨err, s1⟩
    rw [hrun] at hok
    have herr : err = none := hok
    subst herr
    simp [Filter.filterTop, hA, hrun]
  · rcases hrun : IQRFilter.run kwargs s A with ⟨err, s1⟩
    rw [hrun] at hok
    have herr : err = none := hok
    subst herr
    simp [Filter.filterTop, hA, hrun]

/-- Witness for C6 at a concrete input: the fresh `RangeFilter` has no linked
table, and `filter()` on it returns the `no_assay` error with the state
untouched. -/
theorem c6_witness :
    (RangeFilter.init : FState Unit).assay = none ∧
    Filter.filterTop RangeFilter.run () (RangeFilter.init : FState Unit)
      = (.error (.filterError "no_assay"), RangeFilter.init) :=
  ⟨rfl, ((c6_filter_requires_link () (RangeFilter.init : FState Unit)).1 rfl).1⟩

/-- C10: when the per-group loop flags no row at all, the batch exclusion is
skipped (its guard requires a nonempty flag list) and the linked table comes
out exactly as it went in, for both strategies. -/
theorem c10_empty_flags_leave_table {K : Type} (kwargs : K) (s : FState K) (A : Assay) :
    (s.assay = some A → (RangeFilter.groupResults kwargs s A).2.1 = [] →
      (RangeFilter.run kwargs s A).2.assay = some A) ∧
    (s.assay = some A → (IQRFilter.groupResults kwargs s A).2.1 = [] →
      (IQRFilter.run kwargs s A).2.assay = some A) := by
  constructor
  · intro hA hfa
    have hsh := (RangeFilter.run_shape kwargs s A).2.2.2.2.2.2.2
    rw [hsh, hfa]
    cases hres : (RangeFilter.groupResults kwargs s A).1 with
    | none => simp [Filter.filterOut]
    | some e => simp [hA]
  · intro hA hfa
    have hsh := (IQRFilter.run_shape_iqr kwargs s A).2.2.2.2.2.2.2
    rw [hsh, hfa]
    cases hres : (IQRFilter.groupResults kwargs s A).1 with
    | none => simp [Filter.filterOut]
    | some e => simp [hA]

/-- Witness for C10 at a concrete input: a single in-range replicate is not
flagged and the table survives the run unchanged. -/
theorem c10_witness :
    ({ RangeFilter.init with assay := some ⟨"A", [⟨0, 0, some 18⟩]⟩ } : FState Unit).assay
        = some ⟨"A", [⟨0, 0, some 18⟩]⟩ ∧
    (RangeFilter.groupResults ()
        ({ RangeFilter.init with assay := some ⟨"A", [⟨0, 0, some 18⟩]⟩ } : FState Unit)
        ⟨"A", [⟨0, 0, some 18⟩]⟩).2.1 = [] ∧
    (RangeFilter.run ()
        ({ RangeFilter.init with assay := some ⟨"A", [⟨0, 0, some 18⟩]⟩ } : FState Unit)
        ⟨"A", [⟨0, 0, some 18⟩]⟩).2.assay = some ⟨"A", [⟨0, 0, some 18⟩]⟩ :=
  ⟨rfl, by with_unfolding_all decide,
    (c10_empty_flags_leave_table ()
      ({ RangeFilter.init with assay := some ⟨"A", [⟨0, 0, some 18⟩]⟩ } : FState Unit)
      ⟨"A", [⟨0, 0, some 18⟩]⟩).1 rfl (by with_unfolding_all decide)⟩

/-- C9: the limit parameter of the convenience entry point maps a scalar to
both bounds and a two-element sequence positionally, first element to the
upper bound and second to the lower bound — both at the level of
`Filter.set_lim` and through the configuration phase of `filter()`. -/
theorem c9_limit_mapping (K : Type) :
    (∀ (s : FState K) (v : ℚ),
      (Filter.setLim s (some v) none none).upper = v ∧
      (Filter.setLim s (some v) none none).lower = v) ∧
    (∀ (s : FState K) (a b : ℚ),
      (Filter.setLim s none (some a) (some b)).upper = a ∧
      (Filter.setLim s none (some a) (some b)).lower = b) ∧
    (∀ (v : ℚ) (ig dr : Bool),
      @Filters.filterConfig K "range" (some (LimArg.scalar v)) none ig dr
        = .ok (.inst { RangeFilter.init with
            upper := v, lower := v, ignore_nan := ig, drop_outliers := dr })) ∧
    (∀ (a b : ℚ) (ig dr : Bool),
      @Filters.filterConfig K "range" (some (LimArg.pair a b)) none ig dr
        = .ok (.inst { RangeFilter.init with
            upper := a, lower := b, ignore_nan := ig, drop_outliers := dr })) :=
  ⟨fun s v => ⟨rfl, rfl⟩, fun s a b => ⟨rfl, rfl⟩,
   fun v ig dr => rfl, fun a b ig dr => rfl⟩

/-- C7: each strategy run appends its new ledger entries to the existing
ledger (never removing or rewriting a row, also when a run aborts); on a
successful run the new entries are exactly one per non-skipped group in
processing order, each carrying the assay identifier and its group; and
`reset()` touches neither the ledger nor the linked table. -/
theorem c7_ledger_monotone {K : Type} (kwargs : K) (s : FState K) (A : Assay) :
    ((RangeFilter.run kwargs s A).2.filter_stats
        = s.filter_stats ++ (RangeFilter.groupResults kwargs s A).2.2) ∧
    ((IQRFilter.run kwargs s A).2.filter_stats
        = s.filter_stats ++ (IQRFilter.groupResults kwargs s A).2.2) ∧
    ((RangeFilter.groupResults kwargs s A).1 = none →
      (RangeFilter.groupResults kwargs s A).2.2
        = A.groupsList.filterMap (fun g =>
            match RangeFilter.processGroup kwargs s A.id A.rows g with
            | .done _ e => some e
            | _ => none)) ∧
    ((IQRFilter.groupResults kwargs s A).1 = none →
      (IQRFilter.groupResults kwargs s A).2.2
        = A.groupsList.filterMap (fun g =>
            match IQRFilter.processGroup s A.id A.rows g with
            | .done _ e => some e
            | _ => none)) ∧
    (∀ g fl e, RangeFilter.processGroup kwargs s A.id A.rows g = .done fl e →
        e.assay = A.id ∧ e.group = g) ∧
    (∀ g fl e, IQRFilter.processGroup s A.id A.rows g = .done fl e →
        e.assay = A.id ∧ e.group = g) ∧
    (Filter.reset s).filter_stats = s.filter_stats ∧
    (Filter.reset s).assay = s.assay := by
  refine ⟨(RangeFilter.run_shape kwargs s A).2.2.2.2.2.1,
          (IQRFilter.run_shape_iqr kwargs s A).2.2.2.2.2.1,
          fun h => Filter.loop_entries_of_ok h,
          fun h => Filter.loop_entries_of_ok h,
          fun g fl e hdone => ?_, fun g fl e hdone => ?_, rfl, rfl⟩
  · obtain ⟨a, ha, hfl, hent⟩ := RangeFilter.processGroup_done hdone
    rw [hent]
    exact ⟨rfl, rfl⟩
  · obtain ⟨a, ha, hent⟩ := IQRFilter.processGroup_done_iqr hdone
    rw [hent]
    exact ⟨rfl, rfl⟩

/-- Witness for C7 at a concrete input: one group, one run, one ledger entry,
matching the one-entry-per-processed-group description. -/
theorem c7_witness :
    ((RangeFilter.groupResults () (RangeFilter.init : FState Unit)
        ⟨"A", [⟨0, 0, some 1⟩]⟩).1 = none) ∧
    (RangeFilter.groupResults () (RangeFilter.init : FState Unit)
        ⟨"A", [⟨0, 0, some 1⟩]⟩).2.2
      = (Assay.groupsList ⟨"A", [⟨0, 0, some 1⟩]⟩).filterMap (fun g =>
          match RangeFilter.processGroup () (RangeFilter.init : FState Unit)
              (Assay.id ⟨"A", [⟨0, 0, some 1⟩]⟩) [⟨0, 0, some 1⟩] g with
          | .done _ e => some e
          | _ => none) :=
  ⟨by with_unfolding_all decide,
   (c7_ledger_monotone () (RangeFilter.init : FState Unit)
      ⟨"A", [⟨0, 0, some 1⟩]⟩).2.2.1 (by with_unfolding_all decide)⟩

/-- The user-defined function anchor of the concrete C3 evaluation (its body
is irrelevant: the dispatch never calls it). -/
def c3f : List Row → Unit → Option ℚ := fun rows u => some 5

/-- The table of the concrete C3 evaluation. -/
def c3A : Assay := ⟨"A", [⟨0, 0, some 1⟩]⟩

/-- The C3 filter: a `RangeFilter` whose anchor is the user-defined function,
linked to the C3 table. -/
def c3s : FState Unit :=
  { (RangeFilter.init : FState Unit) with assay := some c3A, anchor := .fn c3f }

/-- C3, evaluated on the code: the anchor-type dispatch
`type(self._anchor) == type(print)` matches only `builtin_function_or_method`,
so a user-supplied Python function anchor matches no branch of `_get_anchor`
and the trailing `return anchor` raises `UnboundLocalError` — the callable is
never applied to the group's sub-table. The first run on any table with a
group dies with that error before flagging anything or appending any ledger
entry. -/
theorem c3_user_function_anchor :
    (∀ (K : Type) (kwargs : K) (g : ℕ) (tmp : List Row) (s : FState K)
        (f : List Row → K → Option ℚ),
      RangeFilter.getAnchor { s with anchor := .fn f } kwargs g tmp
        = .error (.unboundLocalError "anchor")) ∧
    (RangeFilter.groupResults () c3s c3A).1 = some (.unboundLocalError "anchor") ∧
    (RangeFilter.groupResults () c3s c3A).2.1 = [] ∧
    (RangeFilter.groupResults () c3s c3A).2.2 = [] ∧
    Filter.filterTop RangeFilter.run () c3s
      = (.error (.unboundLocalError "anchor"), c3s) :=
  ⟨fun K kwargs g tmp s f => rfl, by with_unfolding_all decide,
   by with_unfolding_all decide, by with_unfolding_all decide,
   by with_unfolding_all rfl⟩

/-- C4: every ledger entry of an `IQRFilter` run with a finite anchor has
upper bound `median + (Q3 - Q1) × upperMultiplier` and lower bound
`median - (Q3 - Q1) × lowerMultiplier`, exactly, where the median is the
NaN-ignoring group median and Q1, Q3 are the NaN-safe quantile estimates at
the 26th and 76th percentiles of the group's values. -/
theorem c4_iqr_bounds {K : Type} (kwargs : K) (s : FState K) (A : Assay) :
    ∀ e ∈ (IQRFilter.groupResults kwargs s A).2.2, ∀ m q1 q3 : ℚ,
      npNanMedian ((A.rows.filter (fun r => r.group == e.group)).map
        (fun r => r.value)) = some m →
      npNanQuantile (26/100) ((A.rows.filter (fun r => r.group == e.group)).map
        (fun r => r.value)) = some q1 →
      npNanQuantile (76/100) ((A.rows.filter (fun r => r.group == e.group)).map
        (fun r => r.value)) = some q3 →
      e.anchor = some m ∧
      e.upper = some (m + (q3 - q1) * s.upper) ∧
      e.lower = some (m - (q3 - q1) * s.lower) := by
  intro e he m q1 q3 hm hq1 hq3
  obtain ⟨g, hg, fl, hdone⟩ := Filter.loop_mem_entries he
  obtain ⟨a, ha, hent⟩ := IQRFilter.processGroup_done_iqr hdone
  subst hent
  have hm1 : npNanMedian ((A.rows.filter (fun r => r.group == g)).map
      (fun r => r.value)) = some m := hm
  have hq11 : npNanQuantile (26/100) ((A.rows.filter (fun r => r.group == g)).map
      (fun r => r.value)) = some q1 := hq1
  have hq31 : npNanQuantile (76/100) ((A.rows.filter (fun r => r.group == g)).map
      (fun r => r.value)) = some q3 := hq3
  rw [ha] at hm1
  have ham : a = m := by injection hm1
  subst ham
  refine ⟨rfl, ?_, ?_⟩
  · show addO (some a) (mulO (subO
        (npNanQuantile (76/100) ((A.rows.filter (fun r => r.group == g)).map (fun r => r.value)))
        (npNanQuantile (26/100) ((A.rows.filter (fun r => r.group == g)).map (fun r => r.value))))
        (some s.upper)) = some (a + (q3 - q1) * s.upper)
    rw [hq31, hq11]
    rfl
  · show subO (some a) (mulO (subO
        (npNanQuantile (76/100) ((A.rows.filter (fun r => r.group == g)).map (fun r => r.value)))
        (npNanQuantile (26/100) ((A.rows.filter (fun r => r.group == g)).map (fun r => r.value))))
        (some s.lower)) = some (a - (q3 - q1) * s.lower)
    rw [hq31, hq11]
    rfl

/-- The table of the concrete C4 witness: one group with values `[10, 20]`. -/
def c4A : Assay := ⟨"A", [⟨0, 0, some 10⟩, ⟨1, 0, some 20⟩]⟩

set_option maxRecDepth 2000 in
/-- Witness for C4 at a concrete input: for the default `IQRFilter` on
`[10, 20]`, the NaN-safe median is 15, the quantile estimates are
Q1 = 12.6 and Q3 = 17.6, and the ledger bounds follow the formula exactly:
`15 ± (17.6 - 12.6) × 1.5`. -/
theorem c4_witness :
    ((⟨"A", 0, some 15, some (45/2), some (15/2)⟩ : LedgerEntry)
        ∈ (IQRFilter.groupResults () (IQRFilter.init : FState Unit) c4A).2.2) ∧
    npNanMedian ((c4A.rows.filter (fun r => r.group == 0)).map (fun r => r.value))
        = some 15 ∧
    npNanQuantile (26/100) ((c4A.rows.filter (fun r => r.group == 0)).map (fun r => r.value))
        = some (63/5) ∧
    npNanQuantile (76/100) ((c4A.rows.filter (fun r => r.group == 0)).map (fun r => r.value))
        = some (88/5) ∧
    (⟨"A", 0, some 15, some (45/2), some (15/2)⟩ : LedgerEntry).anchor = some 15 ∧
    (⟨"A", 0, some 15, some (45/2), some (15/2)⟩ : LedgerEntry).upper
        = some (15 + (88/5 - 63/5) * (IQRFilter.init : FState Unit).upper) ∧
    (⟨"A", 0, some 15, some (45/2), some (15/2)⟩ : LedgerEntry).lower
        = some (15 - (88/5 - 63/5) * (IQRFilter.init : FState Unit).lower) :=
  ⟨by with_unfolding_all decide, by with_unfolding_all decide,
   by with_unfolding_all decide, by with_unfolding_all decide,
   (c4_iqr_bounds () (IQRFilter.init : FState Unit) c4A
      ⟨"A", 0, some 15, some (45/2), some (15/2)⟩
      (by with_unfolding_all decide) 15 (63/5) (88/5)
      (by with_unfolding_all decide) (by with_unfolding_all decide)
      (by with_unfolding_all decide)).1,
   (c4_iqr_bounds () (IQRFilter.init : FState Unit) c4A
      ⟨"A", 0, some 15, some (45/2), some (15/2)⟩
      (by with_unfolding_all decide) 15 (63/5) (88/5)
      (by with_unfolding_all decide) (by with_unfolding_all decide)
      (by with_unfolding_all decide)).2.1,
   (c4_iqr_bounds () (IQRFilter.init : FState Unit) c4A
      ⟨"A", 0, some 15, some (45/2), some (15/2)⟩
      (by with_unfolding_all decide) 15 (63/5) (88/5)
      (by with_unfolding_all decide) (by with_unfolding_all decide)
      (by with_unfolding_all decide)).2.2⟩

/-- The table of the concrete C1 evaluation: group 0 contains a NaN value, so
`np.median` resolves the group anchor to NaN. -/
def c1A : Assay := ⟨"A", [⟨0, 0, none⟩, ⟨1, 0, some 18⟩]⟩

/-- The C1 filter with the default NaN policy (`ignore_nan = True`). -/
def c1sIgnore : FState Unit := { (RangeFilter.init : FState Unit) with assay := some c1A }

/-- The C1 filter with `ignore_nan` set to `False`. -/
def c1sStrict : FState Unit :=
  { (RangeFilter.init : FState Unit) with assay := some c1A, ignore_nan := false }

/-- C1, evaluated on the code: with `ignore_nan = True` the NaN-anchored group
is skipped — no rows flagged, no ledger entry, table unchanged. With
`ignore_nan = False` there is no policy check at all: the group is processed,
the NaN anchor flows into the query bounds, and the call dies with the pandas
name-resolution error escaping from the formatted query string — which is not
a `FilterError`, contradicting the documented policy. -/
theorem c1_nan_anchor_policy :
    Filter.filterTop RangeFilter.run () c1sIgnore = (.ok (some c1A), c1sIgnore) ∧
    (RangeFilter.groupResults () c1sIgnore c1A).2.1 = [] ∧
    (RangeFilter.groupResults () c1sIgnore c1A).2.2 = [] ∧
    Filter.filterTop RangeFilter.run () c1sStrict
      = (.error (.undefinedVariableError "nan"), c1sStrict) :=
  ⟨by with_unfolding_all rfl, by with_unfolding_all decide, by with_unfolding_all decide,
   by with_unfolding_all rfl⟩

/-- Anchor resolution returns (does not raise) for every specification other
than a user-defined function. -/
theorem RangeFilter.getAnchor_ok_of_not_fn {K : Type} (s : FState K) (kwargs : K)
    (g : ℕ) (tmp : List Row) (hfn : s.anchor.isFn = false) :
    ∃ v, RangeFilter.getAnchor s kwargs g tmp = .ok v := by
  unfold RangeFilter.getAnchor
  cases hspec : s.anchor with
  | median => exact ⟨_, rfl⟩
  | builtin f => exact ⟨_, rfl⟩
  | table f => exact ⟨_, rfl⟩
  | const c => exact ⟨_, rfl⟩
  | fn f =>
    rw [hspec] at hfn
    simp [AnchorSpec.isFn] at hfn

/-- With the ignore-NaN policy enabled and an anchor specification that is not
a user-defined function, no group of a `RangeFilter` run can raise: each group
is either skipped or completes. -/
theorem RangeFilter.processGroup_no_fail {K : Type} (kwargs : K) (s : FState K)
    (aid : String) (df : List Row) (g : ℕ) (hig : s.ignore_nan = true)
    (hfn : s.anchor.isFn = false) :
    RangeFilter.processGroup kwargs s aid df g = .skipped ∨
      ∃ fl e, RangeFilter.processGroup kwargs s aid df g = .done fl e := by
  obtain ⟨v, ha⟩ := RangeFilter.getAnchor_ok_of_not_fn s kwargs g
    (df.filter (fun r => r.group == g)) hfn
  cases v with
  | none =>
    left
    rw [RangeFilter.processGroup_anchor_ok ha, hig]
    simp
  | some a =>
    right
    refine ⟨((df.filter (fun r => r.group == g)).filter
        (fun r => valOut r.value (a - s.lower) (a + s.upper))).map (fun r => r.idx),
      ⟨aid, g, some a, some (a + s.upper), some (a - s.lower)⟩, ?_⟩
    rw [RangeFilter.processGroup_anchor_ok ha]
    simp [RangeFilter.setBounds, addO, subO, queryOutside]

/-- A loop whose steps never raise completes successfully. -/
theorem Filter.loop_ok_of_no_fail {step : ℕ → GroupOutcome} {gs : List ℕ}
    (h : ∀ g ∈ gs, step g = .skipped ∨ ∃ fl e, step g = .done fl e) :
    (Filter.loop step gs).1 = none := by
  induction gs with
  | nil => rfl
  | cons g gs ih =>
    rw [Filter.loop_cons]
    rcases h g (List.mem_cons_self g gs) with hs | ⟨fl, e, hs⟩ <;> rw [hs]
    · exact ih (fun g1 h1 => h g1 (List.mem_cons_of_mem g h1))
    · exact ih (fun g1 h1 => h g1 (List.mem_cons_of_mem g h1))

/-- With the ignore-NaN policy enabled and an anchor specification that is
not a user-defined function, a `RangeFilter` run always succeeds and leaves a
linked table behind. -/
theorem RangeFilter.run_ok {K : Type} (kwargs : K) (s : FState K) (A : Assay)
    (hig : s.ignore_nan = true) (hfn : s.anchor.isFn = false) :
    (RangeFilter.run kwargs s A).1 = none ∧
    (∃ B, (RangeFilter.run kwargs s A).2.assay = some B) ∧
    (RangeFilter.run kwargs s A).2.ignore_nan = true := by
  have hok : (RangeFilter.groupResults kwargs s A).1 = none :=
    Filter.loop_ok_of_no_fail
      (fun g hg => RangeFilter.processGroup_no_fail kwargs s A.id A.rows g hig hfn)
  have hsh := RangeFilter.run_shape kwargs s A
  refine ⟨?_,
    ⟨Filter.filterOut A (RangeFilter.groupResults kwargs s A).2.1 s.drop_outliers, ?_⟩, ?_⟩
  · rw [hsh.2.2.2.2.2.2.1, hok]
  · rw [hsh.2.2.2.2.2.2.2, if_pos hok]
  · rw [hsh.1, hig]

/-- `Filter.filter` delegates to the strategy run when a table is linked and
the run succeeds. -/
theorem Filter.filterTop_of_ok {K : Type}
    (impl : K → FState K → Assay → Option PyError × FState K)
    (kwargs : K) (s : FState K) (A : Assay) (hA : s.assay = some A)
    (hok : (impl kwargs s A).1 = none) :
    Filter.filterTop impl kwargs s
      = (.ok (impl kwargs s A).2.assay, (impl kwargs s A).2) := by
  rcases hrun : impl kwargs s A with ⟨err, s1⟩
  rw [hrun] at hok
  have herr : err = none := hok
  subst herr
  simp [Filter.filterTop, hA, hrun]

/-- With the ignore-NaN policy enabled and a non-user-function anchor, piping
one table always succeeds, preserving the policy and anchor configuration. -/
theorem RangeFilter.pipeOne_ok {K : Type} (kwargs : K) (s : FState K) (A : Assay)
    (hig : s.ignore_nan = true) (hfn : s.anchor.isFn = false) :
    ∃ B, Filter.pipeOne RangeFilter.run kwargs s A
        = (.ok (some B), (RangeFilter.run kwargs (Filter.link s A) A).2) ∧
      (RangeFilter.run kwargs (Filter.link s A) A).2.ignore_nan = true ∧
      (RangeFilter.run kwargs (Filter.link s A) A).2.anchor = s.anchor := by
  obtain ⟨hok, ⟨B, hB⟩, hig2⟩ := RangeFilter.run_ok kwargs (Filter.link s A) A hig hfn
  refine ⟨B, ?_, hig2, (RangeFilter.run_shape kwargs (Filter.link s A) A).2.2.2.2.1⟩
  unfold Filter.pipeOne
  rw [Filter.filterTop_of_ok RangeFilter.run kwargs (Filter.link s A) A rfl hok, hB]

/-- With the ignore-NaN policy enabled and a non-user-function anchor, piping
a list of tables succeeds and preserves the list length. -/
theorem RangeFilter.pipeList_ok {K : Type} (noKw : K) (s : FState K) (As : List Assay)
    (hig : s.ignore_nan = true) (hfn : s.anchor.isFn = false) :
    ∃ Bs s1, Filter.pipeList RangeFilter.run noKw s As = (.ok Bs, s1) ∧
      Bs.length = As.length ∧ s1.ignore_nan = true := by
  induction As generalizing s with
  | nil => exact ⟨[], s, rfl, rfl, hig⟩
  | cons A As ih =>
    obtain ⟨B, hp, hig1, hanch1⟩ := RangeFilter.pipeOne_ok noKw s A hig hfn
    have hfn1 : (RangeFilter.run noKw (Filter.link s A) A).2.anchor.isFn = false := by
      rw [hanch1]
      exact hfn
    obtain ⟨Bs, s2, hrest, hlen, hig2⟩ := ih _ hig1 hfn1
    refine ⟨some B :: Bs, s2, ?_, by simp [hlen], hig2⟩
    unfold Filter.pipeList
    simp only [hp, hrest]

/-- The configuration phase of the entry point always succeeds in "range"
mode, producing a `RangeFilter` instance carrying the requested policy and the
requested anchor (the default median when none is given). -/
theorem Filters.filterConfig_range_ok {K : Type} (lim : Option LimArg)
    (anchor : Option (AnchorSpec K)) (ig dr : Bool) :
    ∃ sc : FState K, Filters.filterConfig "range" lim anchor ig dr = .ok (.inst sc)
      ∧ sc.ignore_nan = ig
      ∧ sc.anchor = (match anchor with | none => AnchorSpec.median | some a => a) := by
  cases lim with
  | none =>
    cases anchor with
    | none => exact ⟨_, rfl, rfl, rfl⟩
    | some a => exact ⟨_, rfl, rfl, rfl⟩
  | some l =>
    cases l with
    | scalar v =>
      cases anchor with
      | none => exact ⟨_, rfl, rfl, rfl⟩
      | some a => exact ⟨_, rfl, rfl, rfl⟩
    | pair a b =>
      cases anchor with
      | none => exact ⟨_, rfl, rfl, rfl⟩
      | some a2 => exact ⟨_, rfl, rfl, rfl⟩

/-- The table of the concrete C2 evaluation of the range-mode anchor crash. -/
def c2A : Assay := ⟨"C", [⟨0, 0, some 1⟩]⟩

/-- C2, evaluated on the code: in "iqr" mode the entry point binds the class
object instead of constructing an instance (the parentheses are missing), so
the first configuration call raises `TypeError` and `pipe` is never reached.
In "range" mode with the default anchor an instance is configured and piped
once, returning the same shape — single table or list of the same length — as
the input; with a user-supplied function anchor, however, even the range mode
dies inside `_get_anchor` with `UnboundLocalError` (the C3 dispatch slip), so
shape preservation holds only for anchors the dispatch can resolve. -/
theorem c2_entry_point {K : Type} (noKw : K) :
    (∀ (lim : Option LimArg) (anchor : Option (AnchorSpec K)) (ig dr : Bool)
        (input : AssayInput),
        Filters.filter noKw "iqr" lim anchor ig dr input = .error .typeError) ∧
    (∀ (lim : Option LimArg) (dr : Bool) (A : Assay),
        ∃ B, Filters.filter noKw "range" lim none true dr (.one A)
            = .ok (.one (some B))) ∧
    (∀ (lim : Option LimArg) (dr : Bool) (As : List Assay),
        ∃ Bs, Filters.filter noKw "range" lim none true dr (.many As)
            = .ok (.many Bs) ∧ Bs.length = As.length) ∧
    (∀ (f : List Row → K → Option ℚ) (dr : Bool),
        Filters.filter noKw "range" none (some (.fn f)) true dr (.one c2A)
          = .error (.unboundLocalError "anchor")) := by
  refine ⟨fun lim anchor ig dr input => ?_, fun lim dr A => ?_,
    fun lim dr As => ?_, fun f dr => rfl⟩
  · cases lim with
    | none => rfl
    | some l => cases l <;> rfl
  · obtain ⟨sc, hc, hig, hanch⟩ :=
      Filters.filterConfig_range_ok lim (none : Option (AnchorSpec K)) true dr
    have hfn : sc.anchor.isFn = false := by
      rw [hanch]
      rfl
    obtain ⟨B, hp, -⟩ := RangeFilter.pipeOne_ok noKw sc A hig hfn
    refine ⟨B, ?_⟩
    have hred : Filters.filter noKw "range" lim none true dr (.one A)
        = (match Filter.pipeOne RangeFilter.run noKw sc A with
           | (Except.error e, s1) => (Except.error e, s1)
           | (Except.ok a, s1) => (Except.ok (FilterOutput.one a), s1)).1 := by
      unfold Filters.filter
      rw [hc]
      rfl
    rw [hred, hp]
  · obtain ⟨sc, hc, hig, hanch⟩ :=
      Filters.filterConfig_range_ok lim (none : Option (AnchorSpec K)) true dr
    have hfn : sc.anchor.isFn = false := by
      rw [hanch]
      rfl
    obtain ⟨Bs, s2, hl, hlen, -⟩ := RangeFilter.pipeList_ok noKw sc As hig hfn
    refine ⟨Bs, ?_, hlen⟩
    have hred : Filters.filter noKw "range" lim none true dr (.many As)
        = (match Filter.pipeList RangeFilter.run noKw sc As with
           | (Except.error e, s1) => (Except.error e, s1)
           | (Except.ok as, s1) => (Except.ok (FilterOutput.many as), s1)).1 := by
      unfold Filters.filter
      rw [hc]
      rfl
    rw [hred, hl]

/-- On a table whose row indices are distinct, a row's index appears among
the indices of the filtered rows exactly when the row satisfies the
predicate. -/
theorem mem_map_idx_filter {p : Row → Bool} {l : List Row} {r : Row}
    (hnd : (l.map (fun x => x.idx)).Nodup) (hr : r ∈ l) :
    r.idx ∈ (l.filter p).map (fun x => x.idx) ↔ p r = true := by
  constructor
  · intro h
    obtain ⟨r1, hr1, hidx⟩ := List.mem_map.mp h
    have hr1l : r1 ∈ l := List.mem_of_mem_filter hr1
    have heq : r1 = r := List.inj_on_of_nodup_map hnd hr1l hr hidx
    subst heq
    exact List.of_mem_filter hr1
  · intro hp
    exact List.mem_map.mpr ⟨r, List.mem_filter.mpr ⟨hr, hp⟩, rfl⟩

/-- The table of the C5 example: one group with values
`[18.0, 18.2, 18.1, 25.0]`. -/
def c5A : Assay :=
  ⟨"A", [⟨0, 0, some 18⟩, ⟨1, 0, some (91/5)⟩, ⟨2, 0, some (181/10)⟩, ⟨3, 0, some 25⟩]⟩

/-- The C5 example filter: a default `RangeFilter` linked to the example
table. -/
def c5s : FState Unit := { (RangeFilter.init : FState Unit) with assay := some c5A }

set_option maxRecDepth 4000 in
/-- C5: for a group with a finite anchor, a row is flagged by `RangeFilter`
exactly when its value is strictly below `anchor - lower` or strictly above
`anchor + upper`; NaN-valued rows are never flagged. On the spec's example
`[18.0, 18.2, 18.1, 25.0]` with defaults, the anchor is the median 18.15, the
window is `[17.15, 19.15]`, exactly the row with value 25.0 is flagged, and
with `dropOutliers = false` that row's value becomes NaN while the other three
are unchanged. -/
theorem c5_range_flagging :
    (∀ (K : Type) (kwargs : K) (s : FState K) (aid : String) (df : List Row)
        (g : ℕ) (fl : List ℕ) (e : LedgerEntry) (a : ℚ),
      RangeFilter.processGroup kwargs s aid df g = .done fl e →
      RangeFilter.getAnchor s kwargs g (df.filter (fun r => r.group == g))
        = .ok (some a) →
      ((df.filter (fun r => r.group == g)).map (fun r => r.idx)).Nodup →
      ∀ r ∈ df.filter (fun r => r.group == g),
        (r.idx ∈ fl ↔ ∃ v, r.value = some v ∧ (v < a - s.lower ∨ v > a + s.upper))) ∧
    RangeFilter.getAnchor c5s () 0 (c5A.rows.filter (fun r => r.group == 0))
        = .ok (some (363/20)) ∧
    (RangeFilter.groupResults () c5s c5A).2.1 = [3] ∧
    (RangeFilter.groupResults () c5s c5A).2.2
        = [⟨"A", 0, some (363/20), some (383/20), some (343/20)⟩] ∧
    (RangeFilter.run () c5s c5A).1 = none ∧
    (RangeFilter.run () c5s c5A).2.assay
        = some ⟨"A", [⟨0, 0, some 18⟩, ⟨1, 0, some (91/5)⟩,
                      ⟨2, 0, some (181/10)⟩, ⟨3, 0, none⟩]⟩ := by
  refine ⟨?_, by with_unfolding_all rfl, by with_unfolding_all decide,
    by with_unfolding_all decide, by with_unfolding_all decide,
    by with_unfolding_all decide⟩
  intro K kwargs s aid df g fl e a hdone ha hnd r hr
  obtain ⟨a1, ha1, hfl, -⟩ := RangeFilter.processGroup_done hdone
  rw [ha] at ha1
  have haa : a = a1 := by
    have h1 := Except.ok.inj ha1
    injection h1
  subst haa
  subst hfl
  rw [mem_map_idx_filter hnd hr]
  cases hv : r.value with
  | none => simp [valOut, hv]
  | some v => simp [valOut, hv]

set_option maxRecDepth 4000 in
/-- Witness for C5 at a concrete input: in the example group the row with
value 25.0 is flagged, and the flagging criterion holds at that row. -/
theorem c5_witness :
    RangeFilter.processGroup () c5s "A" c5A.rows 0
        = .done [3] ⟨"A", 0, some (363/20), some (383/20), some (343/20)⟩ ∧
    RangeFilter.getAnchor c5s () 0 (c5A.rows.filter (fun r => r.group == 0))
        = .ok (some (363/20)) ∧
    ((c5A.rows.filter (fun r => r.group == 0)).map (fun r => r.idx)).Nodup ∧
    ((⟨3, 0, some 25⟩ : Row) ∈ c5A.rows.filter (fun r => r.group == 0)) ∧
    ((⟨3, 0, some 25⟩ : Row).idx ∈ [3] ↔
      ∃ v, (⟨3, 0, some 25⟩ : Row).value = some v ∧
        (v < 363/20 - c5s.lower ∨ v > 363/20 + c5s.upper)) :=
  ⟨by with_unfolding_all decide, by with_unfolding_all rfl,
   by with_unfolding_all decide, by with_unfolding_all decide,
   c5_range_flagging.1 Unit () c5s "A" c5A.rows 0 [3]
     ⟨"A", 0, some (363/20), some (383/20), some (343/20)⟩ (363/20)
     (by with_unfolding_all decide) (by with_unfolding_all rfl)
     (by with_unfolding_all decide) ⟨3, 0, some 25⟩ (by with_unfolding_all decide)⟩

/-- A map that fixes every member of a list is the identity on it. -/
theorem map_eq_self_of {α : Type} (l : List α) (f : α → α) (h : ∀ a ∈ l, f a = a) :
    l.map f = l := by
  induction l with
  | nil => rfl
  | cons x xs ih =>
    simp only [List.map_cons]
    rw [h x (List.mem_cons_self x xs), ih (fun a ha => h a (List.mem_cons_of_mem x ha))]

/-- The resolved anchor depends on the filter state only through its anchor
specification. -/
theorem RangeFilter.getAnchor_congr {K : Type} (s1 s2 : FState K)
    (h : s1.anchor = s2.anchor) (kwargs : K) (g : ℕ) (tmp : List Row) :
    RangeFilter.getAnchor s1 kwargs g tmp = RangeFilter.getAnchor s2 kwargs g tmp := by
  unfold RangeFilter.getAnchor
  rw [h]

/-- Masking preserves the group-identifier sequence at the level of rows. -/
theorem dedup_groups_mask (fa : List ℕ) (l : List Row) :
    dedupFirst ((l.map (maskRow fa)).map (fun r => r.group))
      = dedupFirst (l.map (fun r => r.group)) := by
  have hmap : (l.map (maskRow fa)).map (fun r => r.group)
      = l.map (fun r => r.group) := by
    induction l with
    | nil => rfl
    | cons r xs ih => simp [maskRow_group, ih]
  rw [hmap]

/-- A row of a group that survived a successful `RangeFilter` run unflagged
satisfies the inclusion window of that group's anchor — so re-checking it
against the same window cannot flag it. -/
theorem RangeFilter.not_flagged_again {K : Type} (kwargs : K) (s : FState K)
    (A : Assay) (g : ℕ) (r : Row) (a : ℚ)
    (hok : (RangeFilter.groupResults kwargs s A).1 = none)
    (hg : g ∈ A.groupsList)
    (hr : r ∈ A.rows.filter (fun x => x.group == g))
    (ha : RangeFilter.getAnchor s kwargs g (A.rows.filter (fun x => x.group == g))
      = .ok (some a))
    (hnot : r.idx ∉ (RangeFilter.groupResults kwargs s A).2.1) :
    valOut r.value (a - s.lower) (a + s.upper) = false := by
  rcases Filter.loop_step_of_ok hok hg with hskip | ⟨fl, e, hdone⟩
  · obtain ⟨-, hnone⟩ := RangeFilter.processGroup_skipped hskip
    rw [ha] at hnone
    simp at hnone
  · obtain ⟨a1, ha1, hfl, -⟩ := RangeFilter.processGroup_done hdone
    rw [ha] at ha1
    have haa : a = a1 := by
      have h1 := Except.ok.inj ha1
      injection h1
    subst haa
    cases hb : valOut r.value (a - s.lower) (a + s.upper) with
    | false => rfl
    | true =>
      exfalso
      have hridx : r.idx ∈ fl := by
        rw [hfl]
        exact List.mem_map.mpr ⟨r, List.mem_filter.mpr ⟨hr, hb⟩, rfl⟩
      exact hnot (Filter.loop_done_subset hok hg hdone r.idx hridx)

/-- The table of the C8 counterexample: one group with values `[0, 5]`. -/
def c8A : Assay := ⟨"A", [⟨0, 0, some 0⟩, ⟨1, 0, some 5⟩]⟩

/-- The adversarial callable anchor of the C8 counterexample: 100 when the
sub-table contains a NaN, 0 otherwise. It is a callable of Python type
`builtin_function_or_method` (e.g. a C-extension function) — the only kind of
callable the dispatch `type(self._anchor) == type(print)` actually invokes. -/
def c8f : List Row → Unit → Option ℚ :=
  fun rows u => some (if rows.any (fun r => r.value.isNone) then 100 else 0)

/-- The C8 counterexample filter: a `RangeFilter` with the adversarial
builtin-typed callable anchor, `dropOutliers = false`, linked to the example
table. -/
def c8s : FState Unit :=
  { (RangeFilter.init : FState Unit) with assay := some c8A, anchor := .builtin c8f }

/-- C8 as stated is false: with a builtin-typed callable anchor (the kind of
callable the source's dispatch actually invokes) the first run masks the row
with value 5 (anchor 0, window `[-1, 1]`), after which the callable sees the
NaN and returns anchor 100 (window `[99, 101]`), so the second application of
the same filter to the already-masked table flags the previously passing row
with value 0. -/
theorem c8_counterexample :
    c8s.drop_outliers = false ∧
    (RangeFilter.groupResults () c8s c8A).1 = none ∧
    (RangeFilter.run () c8s c8A).2.assay = some ⟨"A", [⟨0, 0, some 0⟩, ⟨1, 0, none⟩]⟩ ∧
    (RangeFilter.groupResults () (RangeFilter.run () c8s c8A).2
        ⟨"A", [⟨0, 0, some 0⟩, ⟨1, 0, none⟩]⟩).2.1 = [0] ∧
    [0] ≠ ([] : List ℕ) :=
  ⟨rfl, by with_unfolding_all decide, by with_unfolding_all decide,
   by with_unfolding_all decide, by decide⟩

/-- Core of the amended C8: after a successful `RangeFilter` run, re-running a
filter with the same non-callable anchor specification and the same bounds on
the masked table flags nothing: masked rows are NaN and never re-flagged, a
median anchor over a group containing a masked row resolves to NaN (so the
group is skipped or its query raises before flagging), and surviving rows
still satisfy the unchanged window. -/
theorem RangeFilter.second_run_no_flags {K : Type} (kwargs : K) (s : FState K)
    (A : Assay) (fa : List ℕ)
    (hnc : s.anchor.isCallable = false)
    (hok : (RangeFilter.groupResults kwargs s A).1 = none)
    (hfa : fa = (RangeFilter.groupResults kwargs s A).2.1)
    (s2 : FState K)
    (hanch : s2.anchor = s.anchor)
    (hupper : s2.upper = s.upper)
    (hlower : s2.lower = s.lower)
    (A1 : Assay)
    (hrows : A1.rows = A.rows.map (maskRow fa)) :
    (RangeFilter.groupResults kwargs s2 A1).2.1 = [] := by
  apply Filter.loop_faulty_nil
  intro g hg fl2 e2 hdone2
  obtain ⟨a2, ha2, hfl2, -⟩ := RangeFilter.processGroup_done hdone2
  subst hfl2
  have hgroups : A1.groupsList = A.groupsList := by
    unfold Assay.groupsList
    rw [hrows]
    exact dedup_groups_mask fa A.rows
  have hgA : g ∈ A.groupsList := by rw [← hgroups]; exact hg
  have htmp2 : A1.rows.filter (fun r => r.group == g)
      = (A.rows.filter (fun r => r.group == g)).map (maskRow fa) := by
    rw [hrows, filter_mask_comm]
  rw [htmp2] at ha2 ⊢
  rw [hupper, hlower]
  rw [RangeFilter.getAnchor_congr s2 s hanch kwargs g
    ((A.rows.filter (fun r => r.group == g)).map (maskRow fa))] at ha2
  have hfilter : ((A.rows.filter (fun r => r.group == g)).map (maskRow fa)).filter
      (fun r => valOut r.value (a2 - s.lower) (a2 + s.upper)) = [] := by
    rw [List.filter_eq_nil_iff]
    intro r2 hr2
    obtain ⟨r, hrtmp, hmaskr⟩ := List.mem_map.mp hr2
    subst hmaskr
    by_cases hmem : r.idx ∈ fa
    · simp [maskRow, hmem, valOut]
    · have hrr : maskRow fa r = r := by simp [maskRow, hmem]
      rw [hrr]
      rw [hfa] at hmem
      cases hspec : s.anchor with
      | builtin f =>
        rw [hspec] at hnc
        simp [AnchorSpec.isCallable] at hnc
      | fn f =>
        rw [hspec] at hnc
        simp [AnchorSpec.isCallable] at hnc
      | median =>
        have hmed2 : npMedian (((A.rows.filter (fun r => r.group == g)).map (maskRow fa)).map
            (fun r => r.value)) = some a2 := by
          unfold RangeFilter.getAnchor at ha2
          rw [hspec] at ha2
          exact Except.ok.inj ha2
        have hnomask : ∀ r0 ∈ A.rows.filter (fun r => r.group == g), r0.idx ∉ fa := by
          intro r0 hr0 hmem0
          have hnone : (none : Option ℚ) ∈ ((A.rows.filter (fun r => r.group == g)).map
              (maskRow fa)).map (fun r => r.value) := by
            refine List.mem_map.mpr ⟨maskRow fa r0, List.mem_map.mpr ⟨r0, hr0, rfl⟩, ?_⟩
            simp [maskRow, hmem0]
          rw [npMedian_of_mem_none hnone] at hmed2
          cases hmed2
        have htmp_eq : (A.rows.filter (fun r => r.group == g)).map (maskRow fa)
            = A.rows.filter (fun r => r.group == g) :=
          map_eq_self_of _ _ (fun r0 h0 => by simp [maskRow, hnomask r0 h0])
        have ha1 : RangeFilter.getAnchor s kwargs g
            (A.rows.filter (fun r => r.group == g)) = .ok (some a2) := by
          unfold RangeFilter.getAnchor
          rw [hspec]
          rw [htmp_eq] at hmed2
          exact congrArg Except.ok hmed2
        have hval := RangeFilter.not_flagged_again kwargs s A g r a2 hok hgA hrtmp ha1 hmem
        simp [hval]
      | table fT =>
        have ha1 : RangeFilter.getAnchor s kwargs g
            (A.rows.filter (fun r => r.group == g)) = .ok (some a2) := by
          unfold RangeFilter.getAnchor at ha2 ⊢
          rw [hspec] at ha2 ⊢
          exact ha2
        have hval := RangeFilter.not_flagged_again kwargs s A g r a2 hok hgA hrtmp ha1 hmem
        simp [hval]
      | const c =>
        have ha1 : RangeFilter.getAnchor s kwargs g
            (A.rows.filter (fun r => r.group == g)) = .ok (some a2) := by
          unfold RangeFilter.getAnchor at ha2 ⊢
          rw [hspec] at ha2 ⊢
          exact ha2
        have hval := RangeFilter.not_flagged_again kwargs s A g r a2 hok hgA hrtmp ha1 hmem
        simp [hval]
  rw [hfilter]
  rfl

/-- C8, amended: for a `RangeFilter` whose anchor specification is not a
callable, running the filter again (same configuration, `dropOutliers =
false`) on the table masked by a successful first run flags no additional
rows, and leaves the masked table unchanged. The restriction to non-callable
anchors is forced by the counterexample: a callable anchor can see the masked
NaNs and move the window onto previously passing rows. -/
theorem c8_masking_idempotent {K : Type} (kwargs : K) (s : FState K) (A A1 : Assay)
    (hnc : s.anchor.isCallable = false)
    (hdrop : s.drop_outliers = false)
    (hok : (RangeFilter.groupResults kwargs s A).1 = none)
    (hA1 : (RangeFilter.run kwargs s A).2.assay = some A1) :
    (RangeFilter.groupResults kwargs (RangeFilter.run kwargs s A).2 A1).2.1 = [] ∧
    (RangeFilter.run kwargs (RangeFilter.run kwargs s A).2 A1).2.assay = some A1 := by
  have hsh := RangeFilter.run_shape kwargs s A
  have hA1' := hA1
  rw [hsh.2.2.2.2.2.2.2, if_pos hok, hdrop] at hA1'
  have hA1eq := Option.some.inj hA1'
  have hrows : A1.rows = A.rows.map (maskRow (RangeFilter.groupResults kwargs s A).2.1) := by
    rw [← hA1eq]
    exact (filterOut_rows_mask A (RangeFilter.groupResults kwargs s A).2.1).1
  have hfa1 : (RangeFilter.groupResults kwargs (RangeFilter.run kwargs s A).2 A1).2.1 = [] :=
    RangeFilter.second_run_no_flags kwargs s A (RangeFilter.groupResults kwargs s A).2.1
      hnc hok rfl (RangeFilter.run kwargs s A).2 hsh.2.2.2.2.1 hsh.2.2.1 hsh.2.2.2.1 A1 hrows
  refine ⟨hfa1, ?_⟩
  have hsh2 := RangeFilter.run_shape kwargs (RangeFilter.run kwargs s A).2 A1
  rw [hsh2.2.2.2.2.2.2.2]
  cases hres : (RangeFilter.groupResults kwargs (RangeFilter.run kwargs s A).2 A1).1 with
  | none =>
    simp [hfa1, Filter.filterOut]
  | some e =>
    rw [if_neg (by simp)]
    exact hA1

/-- The table of the C8 witness: one group with values `[18, 18.2, 25]`. -/
def c8wA : Assay := ⟨"B", [⟨0, 0, some 18⟩, ⟨1, 0, some (91/5)⟩, ⟨2, 0, some 25⟩]⟩

/-- The C8 witness filter: a default `RangeFilter` (median anchor, not a
callable) linked to the witness table. -/
def c8ws : FState Unit := { (RangeFilter.init : FState Unit) with assay := some c8wA }

set_option maxRecDepth 4000 in
/-- Witness for the amended C8 at a concrete input: the first run masks the
row with value 25 (median 18.2, window `[17.2, 19.2]`); the second run on the
masked table flags nothing and leaves it unchanged. -/
theorem c8_witness :
    c8ws.anchor.isCallable = false ∧
    c8ws.drop_outliers = false ∧
    (RangeFilter.groupResults () c8ws c8wA).1 = none ∧
    (RangeFilter.run () c8ws c8wA).2.assay
        = some ⟨"B", [⟨0, 0, some 18⟩, ⟨1, 0, some (91/5)⟩, ⟨2, 0, none⟩]⟩ ∧
    (RangeFilter.groupResults () (RangeFilter.run () c8ws c8wA).2
        ⟨"B", [⟨0, 0, some 18⟩, ⟨1, 0, some (91/5)⟩, ⟨2, 0, none⟩]⟩).2.1 = [] ∧
    (RangeFilter.run () (RangeFilter.run () c8ws c8wA).2
        ⟨"B", [⟨0, 0, some 18⟩, ⟨1, 0, some (91/5)⟩, ⟨2, 0, none⟩]⟩).2.assay
      = some ⟨"B", [⟨0, 0, some 18⟩, ⟨1, 0, some (91/5)⟩, ⟨2, 0, none⟩]⟩ :=
  ⟨rfl, rfl, by with_unfolding_all decide, by with_unfolding_all decide,
   (c8_masking_idempotent () c8ws c8wA
      ⟨"B", [⟨0, 0, some 18⟩, ⟨1, 0, some (91/5)⟩, ⟨2, 0, none⟩]⟩
      rfl rfl (by with_unfolding_all decide) (by with_unfolding_all decide)).1,
   (c8_masking_idempotent () c8ws c8wA
      ⟨"B", [⟨0, 0, some 18⟩, ⟨1, 0, some (91/5)⟩, ⟨2, 0, none⟩]⟩
      rfl rfl (by with_unfolding_all decide) (by with_unfolding_all decide)).2⟩
